import Mathlib

/-!
A shallow embedding of `process_survey.py`, the survey pre-aggregation
script of the climate website.

Modelling conventions:
* A pandas DataFrame is a `List Row`; every column is nullable, so each
  field is an `Option`.  A boolean-mask filter is `List.filter`.
* The `cells` Python dict is an association list in insertion order,
  together with a last-wins lookup `dlookup` that matches Python dict
  assignment semantics (a later assignment to the same key overwrites).
* Submission timestamps are integers in an order-preserving encoding
  (YYYYMMDD); comparison against the fixed cutoff is the only operation
  the script performs on them, so the encoding is faithful.
* The numeric `Q7.8_*` columns are `Option Rat`: `some v` is a cell that
  `pd.to_numeric(..., errors="coerce")` parses to `v`, and `none` is a
  missing or unparsable cell (which `to_numeric` turns into NaN and
  `fillna(0)` then turns into 0).
* Python `round(x, 1)` rounds half to even; `round1` below does the same
  on exact rationals.
* The `generated` date of the output (wall clock) and the static question
  catalogue `QUESTIONS_META` carry no logic and are omitted from the
  output structure.
-/

namespace ProcessSurvey

/-- One respondent row of the survey CSV.  Fields default to `none`
(missing value) so that concrete test rows are easy to write down. -/
structure Row where
  startDate : Option Int := none
  country : Option String := none
  age : Option String := none
  education : Option String := none
  is_oecd : Option String := none
  is_lmic : Option String := none
  attention_check : Option String := none
  q31 : Option String := none
  q32 : Option String := none
  q41 : Option String := none
  q71 : Option String := none
  q72 : Option String := none
  q73 : Option String := none
  q74 : Option String := none
  q75 : Option String := none
  q76 : Option String := none
  q77 : Option String := none
  q78_1 : Option Rat := none
  q78_7 : Option Rat := none
  q78_8 : Option Rat := none
  q78_9 : Option Rat := none
  q78_10 : Option Rat := none
deriving DecidableEq

/-- `ATTENTION_ANSWER = "7"` -/
def ATTENTION_ANSWER : String := "7"

/-- `DATE_CUTOFF = "2026-01-15"`, in the YYYYMMDD integer encoding. -/
def DATE_CUTOFF : Int := 20260115

/-- `MIN_COUNTRY_N = 100` -/
def MIN_COUNTRY_N : Nat := 100

/-- `AGE_GROUPS` (CSV values, display order). -/
def AGE_GROUPS : List String :=
  ["18-24 years old", "25-34 years old", "35-44 years old",
   "45-54 years old", "55-64 years old", "65+ years old"]

/-- `AGE_SHORT` (CSV value to short JSON label). -/
def AGE_SHORT : List (String × String) :=
  [("18-24 years old", "18-24"), ("25-34 years old", "25-34"),
   ("35-44 years old", "35-44"), ("45-54 years old", "45-54"),
   ("55-64 years old", "55-64"), ("65+ years old", "65+")]

/-- `AGE_SHORT[age_full]` as a total function (the script only applies it
to members of `AGE_GROUPS`, which are all keys of the table). -/
def age_short (a : String) : String := (AGE_SHORT.lookup a).getD ""

/-- `EDU_GROUPS` (CSV value, short label). -/
def EDU_GROUPS : List (String × String) :=
  [("Graduate or professional degree (MA, MS, MBA, PhD, Law Degree, Medical Degree etc)",
    "Graduate degree"),
   ("University - Bachelors Degree", "Bachelor\x27s degree"),
   ("Some University but no degree", "Some university"),
   ("Vocational or Similar", "Vocational"),
   ("Secondary", "Secondary")]

/-- `EDU_MERGE`: raw values merged into one combined bucket. -/
def EDU_MERGE : List (String × String) :=
  [("Some Secondary", "Less than secondary"),
   ("Primary", "Less than secondary"),
   ("Less than Primary", "Less than secondary")]

/-- `edu_map = {full: short for full, short in EDU_GROUPS}; edu_map.update(EDU_MERGE)`.
The two key sets are disjoint, so concatenation of the association lists
models the dict update. -/
def edu_map : List (String × String) := EDU_GROUPS ++ EDU_MERGE

/-- `EDU_SHORT_ORDER = [e[1] for e in EDU_GROUPS] + ["Less than secondary"]` -/
def EDU_SHORT_ORDER : List String :=
  (EDU_GROUPS.map Prod.snd) ++ ["Less than secondary"]

/-- `data["edu_short"] = data["Education"].map(edu_map).fillna("")`,
modelled as a derived function of the row instead of an added column. -/
def edu_short (r : Row) : String :=
  ((r.education.bind (fun e => edu_map.lookup e)).getD "")

/-- `COUNTRY_SHORT` name-shortening table. -/
def COUNTRY_SHORT : List (String × String) :=
  [("United States of America", "United States"),
   ("United Kingdom of Great Britain and Northern Ireland", "United Kingdom"),
   ("United Arab Emirates", "UAE"),
   ("Congo, Democratic Republic of the", "DR Congo"),
   ("Iran (Islamic Republic of)", "Iran"),
   ("Bolivia (Plurinational State of)", "Bolivia"),
   ("Venezuela (Bolivarian Republic of)", "Venezuela"),
   ("Tanzania, United Republic of", "Tanzania"),
   ("Korea, Republic of", "South Korea"),
   ("Lao People\x27s Democratic Republic", "Laos"),
   ("Viet Nam", "Vietnam"),
   ("Russian Federation", "Russia"),
   ("Moldova, Republic of", "Moldova"),
   ("Syrian Arab Republic", "Syria"),
   ("Micronesia (Federated States of)", "Micronesia")]

/-- `COUNTRY_SHORT.get(name, name)` -/
def country_short (c : String) : String := (COUNTRY_SHORT.lookup c).getD c

/-- `Q31_OPTIONS` -/
def Q31_OPTIONS : List String :=
  ["Climate change is happening", "Climate change is not happening", "Not sure"]

/-- `Q32_OPTIONS` -/
def Q32_OPTIONS : List String :=
  ["Caused by human activities",
   "Caused by natural changes in the environment",
   "Caused by a mix of human activities and natural changes in the environment",
   "I don\x27t know"]

/-- `Q41_OPTIONS` -/
def Q41_OPTIONS : List String :=
  ["Strongly agree", "Somewhat agree", "Neither agree nor disagree",
   "Somewhat disagree", "Strongly disagree"]

/-- `Q77_FULL_OPTIONS` (full text used for substring matching). -/
def Q77_FULL_OPTIONS : List String :=
  ["Given to poor country governments without restrictions",
   "Given directly to people in poor countries",
   "Put in an insurance fund for disasters (like droughts and hurricanes)",
   "Given to poor country governments and communities for climate resilience investments (like seawalls and air conditioning)",
   "Put in a fund for climate resilience investments that people can apply to, controlled by rich countries"]

/-- `Q78_COLS`, modelled as the list of column accessors of the five
`Q7.8_*` columns, in the order of the Python list. -/
def Q78_COLS : List (Row → Option Rat) :=
  [Row.q78_1, Row.q78_7, Row.q78_8, Row.q78_9, Row.q78_10]

/-- Substring test on character lists: does the second list contain the
first as a contiguous sublist?  Models `str.contains(..., regex=False)`. -/
def containsSub (needle : List Char) : List Char → Bool
  | [] => needle.isEmpty
  | c :: rest => needle.isPrefixOf (c :: rest) || containsSub needle rest

/-- `series.str.contains(needle, na=False, regex=False)` on one value:
missing values count as not containing. -/
def optContains (v : Option String) (needle : String) : Bool :=
  match v with
  | none => false
  | some s => containsSub needle.data s.data

/-! ## The filter stage (`load_and_filter`) -/

/-- `data[~data["Q3.1"].str.contains("ImportId", na=False)]` -/
def importid_filter (rows : List Row) : List Row :=
  rows.filter (fun r => !(optContains r.q31 "ImportId"))

/-- `data[data["StartDate"] >= DATE_CUTOFF]` (a NaT/missing date compares
false and is dropped, as in pandas). -/
def date_filter (rows : List Row) : List Row :=
  rows.filter (fun r =>
    match r.startDate with
    | some d => decide (DATE_CUTOFF ≤ d)
    | none => false)

/-- `data[data["Attention Check"] == ATTENTION_ANSWER]` -/
def attention_filter (rows : List Row) : List Row :=
  rows.filter (fun r => decide (r.attention_check = some ATTENTION_ANSWER))

/-- The quality-gate part of the filter stage: the three row-level
predicate filters, in source order. -/
def quality_filters (rows : List Row) : List Row :=
  attention_filter (date_filter (importid_filter rows))

/-- `load_and_filter`: skip the first row (`df.iloc[1:]`, the question
label row), then apply the three predicate filters in source order. -/
def load_and_filter (rows : List Row) : List Row :=
  quality_filters (rows.drop 1)

/-! ## Geography resolver (`get_country_info`) -/

/-- The number of rows of `data` whose `Country` equals `c`. -/
def countCountry (data : List Row) (c : String) : Nat :=
  data.countP (fun r => decide (r.country = some c))

/-- Insert into a list sorted by descending count, after any element of
equal or larger count (stable insertion). -/
def insert_desc (p : String × Nat) : List (String × Nat) → List (String × Nat)
  | [] => [p]
  | q :: rest => if q.2 < p.2 then p :: q :: rest else q :: insert_desc p rest

/-- Stable insertion sort by descending count. -/
def sort_desc : List (String × Nat) → List (String × Nat)
  | [] => []
  | p :: rest => insert_desc p (sort_desc rest)

/-- `data["Country"].value_counts()`: the distinct non-missing country
values, each with its count, sorted by descending count (stably). -/
def value_counts (data : List Row) : List (String × Nat) :=
  sort_desc (((data.filterMap Row.country).dedup).map (fun c => (c, countCountry data c)))

/-- A geography descriptor emitted by `get_country_info`. -/
structure CountryInfo where
  id : String
  name : String
  full_name : String
  group : String
  n : Nat
deriving DecidableEq

/-- The macro-group classification of a country (`"oecd"` if any of its
rows has the OECD flag, else `"lmic"` if any has the LMIC flag, else
`"other"`). -/
def country_group (data : List Row) (c : String) : String :=
  if (data.filter (fun r => decide (r.country = some c))).any
      (fun r => decide (r.is_oecd = some "True")) then "oecd"
  else if (data.filter (fun r => decide (r.country = some c))).any
      (fun r => decide (r.is_lmic = some "True")) then "lmic"
  else "other"

/-- `get_country_info`: keep the value-counts entries with count at least
`MIN_COUNTRY_N` and build a descriptor for each. -/
def get_country_info (data : List Row) : List CountryInfo :=
  (value_counts data).filterMap (fun p =>
    if MIN_COUNTRY_N ≤ p.2 then
      some { id := country_short p.1, name := country_short p.1,
             full_name := p.1, group := country_group data p.1, n := p.2 }
    else none)

/-! ## Per-cell aggregation -/

/-- `count_yes_no(series)` -/
def count_yes_no (vals : List (Option String)) : List Nat :=
  [vals.countP (fun v => decide (v = some "Yes")),
   vals.countP (fun v => decide (v = some "No"))]

/-- `count_options(series, options)` -/
def count_options (vals : List (Option String)) (opts : List String) : List Nat :=
  opts.map (fun o => vals.countP (fun v => decide (v = some o)))

/-- `count_q77(series)`: per-option substring counts. -/
def count_q77 (vals : List (Option String)) : List Nat :=
  Q77_FULL_OPTIONS.map (fun fo => vals.countP (fun v => optContains v fo))

/-- `subset["Q7.7"].notna() & (subset["Q7.7"] != "")` on one row. -/
def q77_answered (r : Row) : Bool :=
  r.q77.isSome && decide (r.q77 ≠ some "")

/-- Round half to even (the rounding of Python `round`), on rationals. -/
def rhe (x : Rat) : Int :=
  if x - ⌊x⌋ < 1/2 then ⌊x⌋
  else if (1 : Rat)/2 < x - ⌊x⌋ then ⌊x⌋ + 1
  else if ⌊x⌋ % 2 = 0 then ⌊x⌋ else ⌊x⌋ + 1

/-- `round(x, 1)` -/
def round1 (x : Rat) : Rat := (rhe (10 * x) : Rat) / 10

/-- Arithmetic mean of a list of rationals (`series.mean()`). -/
def avg (l : List Rat) : Rat := l.sum / l.length

/-- `mean_q78(subset)`: means of the five allocation columns over the
rows that answered Q7.7, each coerced with missing/unparsable as 0 and
rounded to one decimal, together with the restricted subset size. -/
def mean_q78 (subset : List Row) : List Rat × Nat :=
  let has_q77 := subset.filter q77_answered
  if has_q77.length = 0 then (List.replicate Q78_COLS.length 0, 0)
  else
    (Q78_COLS.map (fun col => round1 (avg (has_q77.map (fun r => (col r).getD 0)))),
     has_q77.length)

/-- One aggregation cell. -/
structure Cell where
  n : Nat
  q71 : List Nat
  q31 : List Nat
  q32 : List Nat
  q41 : List Nat
  q72 : List Nat
  q73 : List Nat
  q74 : List Nat
  q75 : List Nat
  q76 : List Nat
  n_q76 : Nat
  q77 : List Nat
  n_q77 : Nat
  q78 : List Rat
  n_q78 : Nat
deriving DecidableEq

/-- `aggregate_cell(subset)`: `none` for an empty subset, otherwise the
full statistics cell. -/
def aggregate_cell (subset : List Row) : Option Cell :=
  if subset.length = 0 then none
  else
    let q76c := count_yes_no (subset.map Row.q76)
    some
      { n := subset.length
        q71 := count_yes_no (subset.map Row.q71)
        q31 := count_options (subset.map Row.q31) Q31_OPTIONS
        q32 := count_options (subset.map Row.q32) Q32_OPTIONS
        q41 := count_options (subset.map Row.q41) Q41_OPTIONS
        q72 := count_yes_no (subset.map Row.q72)
        q73 := count_yes_no (subset.map Row.q73)
        q74 := count_yes_no (subset.map Row.q74)
        q75 := count_yes_no (subset.map Row.q75)
        q76 := q76c
        n_q76 := q76c.getD 0 0 + q76c.getD 1 0
        q77 := count_q77 (subset.map Row.q77)
        n_q77 := (subset.map Row.q77).countP Option.isSome -
          (subset.map Row.q77).countP (fun v => decide (v = some ""))
        q78 := (mean_q78 subset).1
        n_q78 := (mean_q78 subset).2 }

/-! ## Group enumerator (`build_cells`) -/

/-- A composite cell key: the script joins the three components with
`"|"`, which occurs in no label, so the triple is a faithful model of
the joined string key `"<geo>|<age-or-All>|<edu-or-All>"`. -/
abbrev CellKey := String × String × String

/-- The top-level (all ages, all education) entry of `add_cells`:
present whenever the subset is non-empty, never suppressed. -/
def topEntries (gid : String) (subset : List Row) : List (CellKey × Cell) :=
  match aggregate_cell subset with
  | none => []
  | some c => [((gid, "All", "All"), c)]

/-- A breakdown entry of `add_cells`: present only when the subset is
non-empty and the cell count is at least 5 (`if cell and cell["n"] >= 5`). -/
def guardEntry (k : CellKey) (subset : List Row) : List (CellKey × Cell) :=
  match aggregate_cell subset with
  | none => []
  | some c => if 5 ≤ c.n then [(k, c)] else []

/-- `add_cells(key_pfx, subset)`: the four breakdown shapes, in source
order — (All, All), each age, each education, each age x education. -/
def add_cells (gid : String) (subset : List Row) : List (CellKey × Cell) :=
  topEntries gid subset
    ++ AGE_GROUPS.flatMap (fun af =>
        guardEntry (gid, age_short af, "All")
          (subset.filter (fun r => decide (r.age = some af))))
    ++ EDU_SHORT_ORDER.flatMap (fun es =>
        guardEntry (gid, "All", es)
          (subset.filter (fun r => decide (edu_short r = es))))
    ++ AGE_GROUPS.flatMap (fun af =>
        EDU_SHORT_ORDER.flatMap (fun es =>
          guardEntry (gid, age_short af, es)
            ((subset.filter (fun r => decide (r.age = some af))).filter
              (fun r => decide (edu_short r = es)))))

/-- `build_cells(data, countries)`: entries for the overall scope, the
two macro-groups and each qualifying country, in insertion order. -/
def build_cells (data : List Row) (countries : List CountryInfo) :
    List (CellKey × Cell) :=
  add_cells "All" data
    ++ add_cells "OECD" (data.filter (fun r => decide (r.is_oecd = some "True")))
    ++ add_cells "LMIC" (data.filter (fun r => decide (r.is_lmic = some "True")))
    ++ countries.flatMap (fun ci =>
        add_cells ci.id (data.filter (fun r => decide (r.country = some ci.full_name))))

/-- Last-wins association lookup: the value of a key in a Python dict
built by repeated assignment in list order. -/
def dlookup (l : List (CellKey × Cell)) (k : CellKey) : Option Cell :=
  match l with
  | [] => none
  | e :: rest =>
    match dlookup rest k with
    | some c => some c
    | none => if e.1 = k then some e.2 else none

/-! ## Output assembly (`build_json`) -/

/-- A country entry of `meta.countries` (the `full_name` field is
dropped by `build_json`). -/
structure MetaCountry where
  id : String
  name : String
  group : String
  n : Nat
deriving DecidableEq

/-- The output object (without the wall-clock `generated` date and the
static question catalogue, which carry no logic). -/
structure Output where
  total_n : Nat
  countries : List MetaCountry
  age_groups : List String
  edu_groups : List String
  cells : List (CellKey × Cell)
deriving DecidableEq

/-- `build_json(data, countries, cells)` -/
def build_json (data : List Row) (countries : List CountryInfo)
    (cells : List (CellKey × Cell)) : Output :=
  { total_n := data.length
    countries := countries.map (fun c =>
      { id := c.id, name := c.name, group := c.group, n := c.n })
    age_groups := AGE_GROUPS.map age_short
    edu_groups := EDU_SHORT_ORDER
    cells := cells }

/-! ## General list lemmas -/

theorem filter3_idem {α : Type} (p q s : α → Bool) (l : List α) :
    (((((l.filter p).filter q).filter s).filter p).filter q).filter s
      = ((l.filter p).filter q).filter s := by
  simp only [List.filter_filter]
  congr 1
  funext a
  cases p a <;> cases q a <;> cases s a <;> rfl

theorem lookup_eq_none_of_keys_ne {β : Type} (m : List (String × β)) (k : String)
    (h : ∀ p ∈ m, p.1 ≠ k) : m.lookup k = none := by
  induction m with
  | nil => rfl
  | cons e es ih =>
    obtain ⟨k2, v⟩ := e
    have he : k2 ≠ k := h (k2, v) (by simp)
    have hk : (k == k2) = false := beq_eq_false_iff_ne.mpr (fun e2 => he e2.symm)
    simp only [List.lookup, hk]
    exact ih (fun p hp => h p (by simp [hp]))

/-! ## Claim C8: the two quality filters commute -/

/-- C8: for any respondent table, applying the date-cutoff filter and
then the attention-check filter yields the same rows as applying them in
the opposite order. -/
theorem C8_filters_commute (rows : List Row) :
    date_filter (attention_filter rows) = attention_filter (date_filter rows) := by
  unfold date_filter attention_filter
  rw [List.filter_filter, List.filter_filter]
  congr 1
  funext r
  exact Bool.and_comm _ _

/-! ## Claim C3: idempotence of the filter stage -/

/-- A row that passes all three quality predicates. -/
def c3_valid_row : Row :=
  { startDate := some 20260120, attention_check := some "7",
    q31 := some "Climate change is happening" }

/-- A two-row raw table: the label row, then one valid data row. -/
def c3_rows : List Row := [{}, c3_valid_row]

/-- C3 counterexample: the full load-and-filter stage is not idempotent.
Re-applying it to its own output drops the first remaining row, because
the stage unconditionally skips the first row (`df.iloc[1:]`, meant for
the label row of a raw export) before the predicate filters. -/
theorem C3_counterexample :
    load_and_filter (load_and_filter c3_rows) ≠ load_and_filter c3_rows := by
  decide

/-- C3 (amended): the predicate part of the stage (ImportId-marker drop,
date cutoff, attention check) is idempotent: re-applying the three
filters to the output of the full stage changes nothing.  Only the
unconditional positional first-row skip breaks idempotence of the full
stage. -/
theorem C3_amended_quality_filters_idempotent (rows : List Row) :
    quality_filters (load_and_filter rows) = load_and_filter rows := by
  unfold load_and_filter quality_filters attention_filter date_filter importid_filter
  exact filter3_idem _ _ _ (rows.drop 1)

/-- Witness for C3 (amended) at a concrete table. -/
theorem C3_amended_witness :
    quality_filters (load_and_filter c3_rows) = load_and_filter c3_rows :=
  C3_amended_quality_filters_idempotent c3_rows

/-! ## Claim C9: rows with unmapped education values -/

/-- C9: a row whose raw education value is a key of neither the fixed
education table nor the merge table gets the empty short label, matches
none of the six education buckets, and still counts toward the
all-education aggregate of any subset containing it. -/
theorem C9_unmapped_education (data : List Row) (r : Row) (e : String)
    (he : r.education = some e) (hm : ∀ p ∈ edu_map, p.1 ≠ e) :
    edu_short r = "" ∧
    (∀ lbl ∈ EDU_SHORT_ORDER, edu_short r ≠ lbl) ∧
    (∀ lbl ∈ EDU_SHORT_ORDER, r ∉ data.filter (fun x => decide (edu_short x = lbl))) ∧
    (r ∈ data → (aggregate_cell data).map Cell.n = some data.length) := by
  have h0 : edu_short r = "" := by
    unfold edu_short
    rw [he, Option.some_bind, lookup_eq_none_of_keys_ne edu_map e hm]
    rfl
  have hord : ∀ l2 ∈ EDU_SHORT_ORDER, l2 ≠ "" := by decide
  refine ⟨h0, ?_, ?_, ?_⟩
  · intro lbl hl e2
    exact hord lbl hl (h0 ▸ e2).symm
  · intro lbl hl hmem
    have h2 := (List.mem_filter.mp hmem).2
    rw [decide_eq_true_eq] at h2
    exact hord lbl hl (h0 ▸ h2).symm
  · intro hr
    have hne : ¬ data.length = 0 := by
      cases data with
      | nil => cases hr
      | cons a l => simp
    unfold aggregate_cell
    rw [if_neg hne]
    rfl

/-- An unmapped-education row used as the C9 witness input. -/
def c9_row : Row := { education := some "weird value" }

/-- Witness for C9 at a concrete row and table. -/
theorem C9_witness :
    edu_short c9_row = "" ∧ (aggregate_cell [c9_row]).map Cell.n = some 1 :=
  ⟨(C9_unmapped_education [c9_row] c9_row "weird value" rfl (by decide)).1,
   (C9_unmapped_education [c9_row] c9_row "weird value" rfl (by decide)).2.2.2
     (by simp)⟩

/-! ## Counting lemmas for claim C2 -/

theorem countP_add_countP_le_length {α : Type} (l : List α) (p q : α → Bool)
    (h : ∀ a ∈ l, ¬(p a = true ∧ q a = true)) :
    l.countP p + l.countP q ≤ l.length := by
  induction l with
  | nil => simp
  | cons x xs ih =>
    have hx := h x (by simp)
    have ih2 := ih (fun a ha => h a (by simp [ha]))
    rw [List.countP_cons, List.countP_cons, List.length_cons]
    cases hp : p x <;> cases hq : q x <;> simp [hp, hq] at hx ⊢ <;> omega

theorem sum_map_add {β : Type} (l : List β) (f g : β → Nat) :
    (l.map (fun x => f x + g x)).sum = (l.map f).sum + (l.map g).sum := by
  induction l with
  | nil => rfl
  | cons x xs ih =>
    simp only [List.map_cons, List.sum_cons, ih]
    omega

theorem sum_indicator_le_one {β : Type} [DecidableEq β] (y : β) (opts : List β)
    (h : opts.Nodup) :
    (opts.map (fun o => if y = o then 1 else 0)).sum ≤ 1 := by
  induction opts with
  | nil => simp
  | cons o os ih =>
    rcases List.nodup_cons.mp h with ⟨ho, hos⟩
    rw [List.map_cons, List.sum_cons]
    by_cases hy : y = o
    · subst hy
      have hz : (os.map (fun o2 => if y = o2 then 1 else 0)).sum = 0 := by
        apply List.sum_eq_zero
        intro x hx
        rcases List.mem_map.mp hx with ⟨o2, ho2, rfl⟩
        have hne : y ≠ o2 := fun e => ho (e ▸ ho2)
        simp [hne]
      simp [hz]
    · simp only [hy, if_false]
      simpa using ih hos

/-- Counting exact matches of each of a duplicate-free option list sums
to at most the number of values: each value matches at most one option. -/
theorem sum_count_options_le (vals : List (Option String)) (opts : List String)
    (h : opts.Nodup) : (count_options vals opts).sum ≤ vals.length := by
  induction vals with
  | nil =>
    have hz : (count_options [] opts).sum = 0 := by
      apply List.sum_eq_zero
      intro x hx
      rcases List.mem_map.mp hx with ⟨o, _, rfl⟩
      simp
    simp [hz]
  | cons v vs ih =>
    have step : count_options (v :: vs) opts
        = opts.map (fun o =>
            (vs.countP (fun w => decide (w = some o))) + (if v = some o then 1 else 0)) := by
      unfold count_options
      apply List.map_congr_left
      intro o _
      rw [List.countP_cons]
      by_cases hv : v = some o <;> simp [hv]
    rw [step,
      sum_map_add opts (fun o => vs.countP (fun w => decide (w = some o)))
        (fun o => if v = some o then 1 else 0)]
    have h1 : (opts.map (fun o => vs.countP (fun w => decide (w = some o)))).sum
        ≤ vs.length := ih
    have h2 : (opts.map (fun o => if v = some o then 1 else 0)).sum ≤ 1 := by
      have hm : ((opts.map some).map (fun o2 => if v = o2 then 1 else 0)).sum ≤ 1 :=
        sum_indicator_le_one v (opts.map some)
          (h.map (Option.some_injective String))
      rw [List.map_map] at hm
      exact hm
    simp only [List.length_cons]
    omega

/-- The q77 denominator, a truncated difference of two counts, equals
the count of non-missing non-empty answers. -/
theorem countP_isSome_sub (vals : List (Option String)) :
    vals.countP Option.isSome - vals.countP (fun v => decide (v = some ""))
      = vals.countP (fun v => Option.isSome v && !(decide (v = some ""))) := by
  induction vals with
  | nil => rfl
  | cons x xs ih =>
    have hm : xs.countP (fun v => decide (v = some "")) ≤ xs.countP Option.isSome := by
      apply List.countP_mono_left
      intro a _ ha
      rw [decide_eq_true_eq] at ha
      rw [ha]
      rfl
    rw [List.countP_cons, List.countP_cons, List.countP_cons]
    cases x with
    | none =>
      simp
      exact ih
    | some s =>
      by_cases hs : s = ""
      · subst hs
        simp
        omega
      · simp [hs]
        omega

theorem containsSub_nil (needle : List Char) (hne : needle ≠ []) :
    containsSub needle [] = false := by
  cases needle with
  | nil => exact absurd rfl hne
  | cons c cs => rfl

theorem optContains_implies (v : Option String) (needle : String)
    (hne : needle.data ≠ []) (h : optContains v needle = true) :
    v.isSome = true ∧ v ≠ some "" := by
  cases v with
  | none => simp [optContains] at h
  | some s =>
    refine ⟨rfl, ?_⟩
    intro he
    have hs : s = "" := Option.some.inj he
    subst hs
    rw [optContains, show ("" : String).data = [] from rfl,
      containsSub_nil needle.data hne] at h
    cases h

/-! ## Claim C2: per-option counts versus denominators -/

/-- A row whose multi-select answer contains the full text of two of the
five Q7.7 options, as a real multi-select response does. -/
def c2_row : Row :=
  { q77 := some ("Given to poor country governments without restrictions, Given directly to people in poor countries") }

/-- The one-row subset used to refute claim C2. -/
def c2_subset : List Row := [c2_row]

/-- C2 counterexample: for the multi-select question the per-option
counts can sum to more than the question's own denominator `n_q77`: one
row selecting two options is counted once in `n_q77` but contributes to
two option counts. -/
theorem C2_counterexample :
    ¬ ∀ c : Cell, aggregate_cell c2_subset = some c → c.q77.sum ≤ c.n_q77 := by
  intro h
  exact absurd (h _ rfl) (by decide)

/-- C2 (amended): in every produced cell the per-option counts of each
yes/no and single-choice question sum to at most the cell's `n` (and the
q76 counts sum exactly to its own denominator `n_q76`); for the
multi-select question q77 each single option count is at most the
question's own denominator `n_q77`, and the sum of the five option
counts is at most `5 * n_q77`. -/
theorem C2_amended_count_bounds (subset : List Row) (c : Cell)
    (h : aggregate_cell subset = some c) :
    c.q71.sum ≤ c.n ∧ c.q31.sum ≤ c.n ∧ c.q32.sum ≤ c.n ∧ c.q41.sum ≤ c.n ∧
    c.q72.sum ≤ c.n ∧ c.q73.sum ≤ c.n ∧ c.q74.sum ≤ c.n ∧ c.q75.sum ≤ c.n ∧
    c.q76.sum ≤ c.n ∧ c.q76.sum = c.n_q76 ∧
    (∀ x ∈ c.q77, x ≤ c.n_q77) ∧
    c.q77.sum ≤ Q77_FULL_OPTIONS.length * c.n_q77 := by
  unfold aggregate_cell at h
  by_cases hlen : subset.length = 0
  · rw [if_pos hlen] at h
    cases h
  rw [if_neg hlen] at h
  rcases Option.some.inj h with rfl
  have hyn : ∀ vals : List (Option String), (count_yes_no vals).sum ≤ vals.length := by
    intro vals
    have hd : ∀ v ∈ vals, ¬((decide (v = some "Yes")) = true ∧ (decide (v = some "No")) = true) := by
      intro v _ hvv
      rcases hvv with ⟨h1, h2⟩
      rw [decide_eq_true_eq] at h1 h2
      rw [h1] at h2
      exact (by decide : ("Yes" : String) ≠ "No") (Option.some.inj h2)
    have := countP_add_countP_le_length vals
      (fun v => decide (v = some "Yes")) (fun v => decide (v = some "No")) hd
    simpa [count_yes_no] using this
  have hmaplen : ∀ f : Row → Option String, (subset.map f).length = subset.length :=
    fun f => List.length_map subset f
  have hq77each : ∀ x ∈ count_q77 (subset.map Row.q77),
      x ≤ (subset.map Row.q77).countP Option.isSome -
        (subset.map Row.q77).countP (fun v => decide (v = some "")) := by
    intro x hx
    rcases List.mem_map.mp hx with ⟨fo, hfo, rfl⟩
    have hfull : ∀ fo2 ∈ Q77_FULL_OPTIONS, fo2.data ≠ [] := by decide
    have hfone : fo.data ≠ [] := hfull fo hfo
    have hmono : (subset.map Row.q77).countP (fun v => optContains v fo)
        ≤ (subset.map Row.q77).countP
            (fun v => Option.isSome v && !(decide (v = some ""))) := by
      apply List.countP_mono_left
      intro v _ hv
      rcases optContains_implies v fo hfone hv with ⟨h1, h2⟩
      simp [h1, h2]
    rw [countP_isSome_sub (subset.map Row.q77)]
    exact hmono
  refine ⟨?_, ?_, ?_, ?_, ?_, ?_, ?_, ?_, ?_, ?_, ?_, ?_⟩
  · simpa [hmaplen] using hyn (subset.map Row.q71)
  · have := sum_count_options_le (subset.map Row.q31) Q31_OPTIONS (by decide)
    simpa [hmaplen] using this
  · have := sum_count_options_le (subset.map Row.q32) Q32_OPTIONS (by decide)
    simpa [hmaplen] using this
  · have := sum_count_options_le (subset.map Row.q41) Q41_OPTIONS (by decide)
    simpa [hmaplen] using this
  · simpa [hmaplen] using hyn (subset.map Row.q72)
  · simpa [hmaplen] using hyn (subset.map Row.q73)
  · simpa [hmaplen] using hyn (subset.map Row.q74)
  · simpa [hmaplen] using hyn (subset.map Row.q75)
  · simpa [hmaplen] using hyn (subset.map Row.q76)
  · simp [count_yes_no]
  · exact hq77each
  · have hlen5 : (count_q77 (subset.map Row.q77)).length = Q77_FULL_OPTIONS.length := by
      simp [count_q77]
    have := List.sum_le_card_nsmul (count_q77 (subset.map Row.q77))
      ((subset.map Row.q77).countP Option.isSome -
        (subset.map Row.q77).countP (fun v => decide (v = some ""))) hq77each
    simpa [hlen5, smul_eq_mul] using this

/-- A five-row subset with multi-select answers used as the C2 witness. -/
def c2w_subset : List Row :=
  [{ q77 := some "Given directly to people in poor countries" },
   { q77 := some "Not sure" },
   { q77 := none },
   { q31 := some "Not sure" },
   { q77 := some "" }]

/-- Witness for C2 (amended) at a concrete subset. -/
theorem C2_amended_witness :
    (count_yes_no (c2w_subset.map Row.q71)).sum ≤ 5 ∧
    (count_q77 (c2w_subset.map Row.q77)).sum ≤ Q77_FULL_OPTIONS.length * 2 := by
  have h := C2_amended_count_bounds c2w_subset _ rfl
  exact ⟨h.1, h.2.2.2.2.2.2.2.2.2.2.2⟩

/-! ## Rounding and mean lemmas for claim C5 -/

theorem rhe_nonneg (x : Rat) (h : 0 ≤ x) : 0 ≤ rhe x := by
  unfold rhe
  have hf : (0 : Int) ≤ ⌊x⌋ := by
    rw [Int.le_floor]
    exact_mod_cast h
  split_ifs <;> omega

theorem rhe_le (x : Rat) (B : Int) (h : x ≤ (B : Rat)) : rhe x ≤ B := by
  unfold rhe
  have hfB : ⌊x⌋ ≤ B := by
    have h2 := Int.floor_le_floor h
    rwa [Int.floor_intCast] at h2
  have hfx : (⌊x⌋ : Rat) ≤ x := Int.floor_le x
  split_ifs with h1 h2 h3
  · exact hfB
  · have hsc : (⌊x⌋ : Rat) + 1/2 < x := by linarith
    have hlt : (⌊x⌋ : Rat) < (B : Rat) := by linarith
    have : ⌊x⌋ < B := by exact_mod_cast hlt
    omega
  · exact hfB
  · have hge : (1 : Rat)/2 ≤ x - ⌊x⌋ := le_of_not_lt h1
    have hlt : (⌊x⌋ : Rat) < (B : Rat) := by linarith
    have : ⌊x⌋ < B := by exact_mod_cast hlt
    omega

theorem round1_bounds (x : Rat) (h0 : 0 ≤ x) (h100 : x ≤ 100) :
    0 ≤ round1 x ∧ round1 x ≤ 100 := by
  unfold round1
  have hn : (0 : Int) ≤ rhe (10 * x) := rhe_nonneg _ (by linarith)
  have hl : rhe (10 * x) ≤ 1000 := rhe_le _ 1000 (by push_cast; linarith)
  constructor
  · exact div_nonneg (by exact_mod_cast hn) (by norm_num)
  · rw [div_le_iff₀ (by norm_num : (0 : Rat) < 10)]
    have hc : ((rhe (10 * x) : Int) : Rat) ≤ 1000 := by exact_mod_cast hl
    linarith

theorem avg_bounds (l : List Rat) (hne : l ≠ [])
    (h : ∀ x ∈ l, 0 ≤ x ∧ x ≤ 100) : 0 ≤ avg l ∧ avg l ≤ 100 := by
  have hlen : 0 < (l.length : Rat) := by
    have hp : 0 < l.length := List.length_pos.mpr hne
    exact_mod_cast hp
  have hsum0 : 0 ≤ l.sum := List.sum_nonneg (fun x hx => (h x hx).1)
  have hsum100 : l.sum ≤ (l.length : Rat) * 100 := by
    have hs := List.sum_le_card_nsmul l 100 (fun x hx => (h x hx).2)
    simpa [nsmul_eq_mul] using hs
  unfold avg
  refine ⟨div_nonneg hsum0 (le_of_lt hlen), ?_⟩
  rw [div_le_iff₀ hlen]
  linarith

/-! ## Claim C5: the numeric-allocation means -/

/-- C5: `mean_q78` restricts to rows that answered the multi-select
question, reports that restricted subset's size as denominator, returns
five `0.0` means with denominator 0 when the restriction is empty,
computes each mean over the coerced (missing/unparsable as 0) column of
the restricted subset rounded to one decimal, and when every coerced
value is a well-formed percentage in `[0, 100]` every reported mean lies
in `[0, 100]`. -/
theorem C5_mean_q78 (subset : List Row) :
    (mean_q78 subset).2 = (subset.filter q77_answered).length ∧
    (subset.filter q77_answered = [] →
      mean_q78 subset = (List.replicate 5 0, 0)) ∧
    (subset.filter q77_answered ≠ [] →
      (mean_q78 subset).1 = Q78_COLS.map (fun col =>
        round1 (avg ((subset.filter q77_answered).map (fun r => (col r).getD 0))))) ∧
    ((∀ r ∈ subset, ∀ col ∈ Q78_COLS, 0 ≤ (col r).getD 0 ∧ (col r).getD 0 ≤ 100) →
      ∀ m ∈ (mean_q78 subset).1, 0 ≤ m ∧ m ≤ 100) := by
  by_cases hc : (subset.filter q77_answered).length = 0
  · have hnil : subset.filter q77_answered = [] := List.length_eq_zero.mp hc
    have hval : mean_q78 subset = (List.replicate 5 0, 0) := by
      simp only [mean_q78]
      rw [if_pos hc]
      rfl
    refine ⟨by rw [hval, hnil]; rfl, fun _ => hval, fun hne => absurd hnil hne, ?_⟩
    intro _ m hm
    rw [hval] at hm
    have hm0 := List.eq_of_mem_replicate hm
    subst hm0
    norm_num
  · have hval : mean_q78 subset = (Q78_COLS.map (fun col =>
        round1 (avg ((subset.filter q77_answered).map (fun r => (col r).getD 0)))),
        (subset.filter q77_answered).length) := by
      simp only [mean_q78]
      rw [if_neg hc]
    refine ⟨by rw [hval], fun hnil => absurd (by rw [hnil]; rfl) hc,
      fun _ => by rw [hval], ?_⟩
    intro hwf m hm
    rw [hval] at hm
    rcases List.mem_map.mp hm with ⟨col, hcol, rfl⟩
    have hfne : subset.filter q77_answered ≠ [] :=
      fun e => hc (by rw [e]; rfl)
    have hmapne : (subset.filter q77_answered).map (fun r => (col r).getD 0) ≠ [] := by
      rw [ne_eq, List.map_eq_nil_iff]
      exact hfne
    have hb : ∀ x ∈ (subset.filter q77_answered).map (fun r => (col r).getD 0),
        0 ≤ x ∧ x ≤ 100 := by
      intro x hx
      rcases List.mem_map.mp hx with ⟨r, hr, rfl⟩
      exact hwf r (List.mem_filter.mp hr).1 col hcol
    rcases avg_bounds _ hmapne hb with ⟨h1, h2⟩
    exact round1_bounds _ h1 h2

/-- A two-row subset for the C5 witness: one row answered Q7.7 (with a
40/60 allocation), one did not. -/
def c5_subset : List Row :=
  [{ q77 := some "Given directly to people in poor countries",
     q78_1 := some 40, q78_7 := some 60 },
   { q78_1 := some 10 }]

/-- Witness for C5 at concrete subsets: the denominator of the two-row
subset, the all-zero result on the empty subset, and the range of the
first reported mean of the two-row subset. -/
theorem C5_witness :
    (mean_q78 c5_subset).2 = 1 ∧
    mean_q78 [] = (List.replicate 5 0, 0) ∧
    (0 ≤ round1 (avg ((c5_subset.filter q77_answered).map
        (fun r => (Row.q78_1 r).getD 0))) ∧
     round1 (avg ((c5_subset.filter q77_answered).map
        (fun r => (Row.q78_1 r).getD 0))) ≤ 100) := by
  refine ⟨by rw [(C5_mean_q78 c5_subset).1]; rfl, (C5_mean_q78 []).2.1 rfl, ?_⟩
  have hform := (C5_mean_q78 c5_subset).2.2.1 (by decide)
  have hrange := (C5_mean_q78 c5_subset).2.2.2 (by decide)
  apply hrange
  rw [hform]
  exact List.mem_map_of_mem _ (List.Mem.head _)

/-! ## Sorting lemmas for claim C4 -/

theorem mem_insert_desc (p q : String × Nat) (l : List (String × Nat)) :
    q ∈ insert_desc p l ↔ q = p ∨ q ∈ l := by
  induction l with
  | nil => simp [insert_desc]
  | cons e es ih =>
    unfold insert_desc
    by_cases h : e.2 < p.2
    · simp [h]
    · simp only [h, if_false, List.mem_cons, ih]
      tauto

theorem pairwise_insert_desc (p : String × Nat) (l : List (String × Nat))
    (h : l.Pairwise (fun a b => b.2 ≤ a.2)) :
    (insert_desc p l).Pairwise (fun a b => b.2 ≤ a.2) := by
  induction l with
  | nil => simp [insert_desc]
  | cons e es ih =>
    rcases List.pairwise_cons.mp h with ⟨he, hes⟩
    unfold insert_desc
    by_cases hc : e.2 < p.2
    · rw [if_pos hc]
      refine List.pairwise_cons.mpr ⟨?_, h⟩
      intro b hb
      rcases List.mem_cons.mp hb with rfl | hbe
      · exact Nat.le_of_lt hc
      · exact Nat.le_trans (he b hbe) (Nat.le_of_lt hc)
    · rw [if_neg hc]
      refine List.pairwise_cons.mpr ⟨?_, ih hes⟩
      intro b hb
      rcases (mem_insert_desc p b es).mp hb with rfl | hbe
      · exact Nat.le_of_not_lt hc
      · exact he b hbe

theorem sorted_sort_desc (l : List (String × Nat)) :
    (sort_desc l).Pairwise (fun a b => b.2 ≤ a.2) := by
  induction l with
  | nil => simp [sort_desc]
  | cons p ps ih => exact pairwise_insert_desc p _ ih

theorem mem_sort_desc (q : String × Nat) (l : List (String × Nat)) :
    q ∈ sort_desc l ↔ q ∈ l := by
  induction l with
  | nil => simp [sort_desc]
  | cons p ps ih =>
    unfold sort_desc
    rw [mem_insert_desc, ih, List.mem_cons]

/-- Every entry of `value_counts` pairs a country occurring in the data
with its exact respondent count. -/
theorem value_counts_mem (data : List Row) (p : String × Nat)
    (h : p ∈ value_counts data) :
    p.2 = countCountry data p.1 ∧ p.1 ∈ data.filterMap Row.country := by
  unfold value_counts at h
  rw [mem_sort_desc] at h
  rcases List.mem_map.mp h with ⟨c, hc, rfl⟩
  exact ⟨rfl, List.mem_dedup.mp hc⟩

/-- Every country occurring in the data occurs in `value_counts`, with
its exact respondent count. -/
theorem value_counts_mem_of (data : List Row) (c : String)
    (h : c ∈ data.filterMap Row.country) :
    (c, countCountry data c) ∈ value_counts data := by
  unfold value_counts
  rw [mem_sort_desc]
  exact List.mem_map_of_mem _ (List.mem_dedup.mpr h)

/-! ## Claim C4: country qualification, macro-group and ordering -/

/-- C4: a country is individually reported iff its respondent count is
at least `MIN_COUNTRY_N = 100`; every reported descriptor carries the
shortened display name, the any-row macro-group classification (OECD
taking precedence over LMIC, else "other") and the exact count; and the
country list is ordered by descending respondent count. -/
theorem C4_country_info (data : List Row) (c : String) :
    ((∃ ci ∈ get_country_info data, ci.full_name = c) ↔
      MIN_COUNTRY_N ≤ countCountry data c) ∧
    (∀ ci ∈ get_country_info data,
      ci.id = country_short ci.full_name ∧
      ci.name = country_short ci.full_name ∧
      ci.group = country_group data ci.full_name ∧
      ci.n = countCountry data ci.full_name) ∧
    (get_country_info data).Pairwise (fun a b => b.n ≤ a.n) := by
  refine ⟨⟨?_, ?_⟩, ?_, ?_⟩
  · rintro ⟨ci, hci, rfl⟩
    rcases List.mem_filterMap.mp hci with ⟨p, hp, hpe⟩
    by_cases hg : MIN_COUNTRY_N ≤ p.2
    · rw [if_pos hg] at hpe
      rcases Option.some.inj hpe with rfl
      have hcnt := (value_counts_mem data p hp).1
      rw [← hcnt]
      exact hg
    · rw [if_neg hg] at hpe
      cases hpe
  · intro h
    have hpos : 0 < data.countP (fun r => decide (r.country = some c)) := by
      have h2 : MIN_COUNTRY_N ≤ data.countP (fun r => decide (r.country = some c)) := h
      unfold MIN_COUNTRY_N at h2
      omega
    rcases List.countP_pos_iff.mp hpos with ⟨r, hr, hrc⟩
    rw [decide_eq_true_eq] at hrc
    have hmem : c ∈ data.filterMap Row.country :=
      List.mem_filterMap.mpr ⟨r, hr, hrc⟩
    refine ⟨⟨country_short c, country_short c, c, country_group data c,
      countCountry data c⟩, ?_, rfl⟩
    apply List.mem_filterMap.mpr
    exact ⟨(c, countCountry data c), value_counts_mem_of data c hmem, by rw [if_pos h]⟩
  · intro ci hci
    rcases List.mem_filterMap.mp hci with ⟨p, hp, hpe⟩
    by_cases hg : MIN_COUNTRY_N ≤ p.2
    · rw [if_pos hg] at hpe
      rcases Option.some.inj hpe with rfl
      have hcnt := (value_counts_mem data p hp).1
      exact ⟨rfl, rfl, rfl, hcnt⟩
    · rw [if_neg hg] at hpe
      cases hpe
  · apply List.Pairwise.filterMap _ (R := fun p q : String × Nat => q.2 ≤ p.2)
    · intro p q hpq b hb b2 hb2
      by_cases hgp : MIN_COUNTRY_N ≤ p.2
      · by_cases hgq : MIN_COUNTRY_N ≤ q.2
        · rw [if_pos hgp] at hb
          rw [if_pos hgq] at hb2
          rcases Option.some.inj (Option.mem_def.mp hb) with rfl
          rcases Option.some.inj (Option.mem_def.mp hb2) with rfl
          exact hpq
        · rw [if_neg hgq] at hb2
          cases Option.mem_def.mp hb2
      · rw [if_neg hgp] at hb
        cases Option.mem_def.mp hb
    · exact sorted_sort_desc _

/-- 100 identical rows of one country plus one row of another, for the
C4 witness. -/
def c4_data : List Row :=
  List.replicate 100 { country := some "Freedonia", is_lmic := some "True" }
    ++ [{ country := some "Sylvania" }]

set_option maxRecDepth 10000 in
/-- Witness for C4 at a concrete table. -/
theorem C4_witness :
    (∃ ci ∈ get_country_info c4_data, ci.full_name = "Freedonia") ∧
    ¬ (∃ ci ∈ get_country_info c4_data, ci.full_name = "Sylvania") := by
  constructor
  · exact (C4_country_info c4_data "Freedonia").1.mpr (by decide)
  · intro h
    have := (C4_country_info c4_data "Sylvania").1.mp h
    revert this
    decide

/-! ## Cell-construction lemmas for claims C1 and C10 -/

theorem aggregate_cell_none (s : List Row) : aggregate_cell s = none ↔ s = [] := by
  unfold aggregate_cell
  by_cases h : s.length = 0
  · rw [if_pos h]
    simp [List.length_eq_zero.mp h]
  · rw [if_neg h]
    constructor
    · intro he
      cases he
    · intro he
      exact absurd (by rw [he]; rfl) h

theorem aggregate_cell_n (s : List Row) (c : Cell)
    (h : aggregate_cell s = some c) : c.n = s.length := by
  unfold aggregate_cell at h
  by_cases hl : s.length = 0
  · rw [if_pos hl] at h
    cases h
  · rw [if_neg hl] at h
    rcases Option.some.inj h with rfl
    rfl

theorem mem_guardEntry (k : CellKey) (s : List Row) (kc : CellKey × Cell)
    (h : kc ∈ guardEntry k s) : kc.1 = k ∧ 5 ≤ kc.2.n := by
  unfold guardEntry at h
  split at h
  · cases h
  · split at h
    · rename_i h5
      rcases List.mem_singleton.mp h with rfl
      exact ⟨rfl, h5⟩
    · cases h

theorem mem_topEntries (g : String) (s : List Row) (kc : CellKey × Cell)
    (h : kc ∈ topEntries g s) :
    kc.1 = (g, "All", "All") ∧ aggregate_cell s = some kc.2 := by
  unfold topEntries at h
  split at h
  · cases h
  · rename_i c heq
    rcases List.mem_singleton.mp h with rfl
    exact ⟨rfl, heq⟩

/-- Every entry added by `add_cells g s` has geography component `g`,
and is either the never-suppressed top-level cell of `s` or has passed
the minimum-sample-size guard. -/
theorem mem_add_cells (g : String) (s : List Row) (kc : CellKey × Cell)
    (h : kc ∈ add_cells g s) :
    kc.1.1 = g ∧
    ((kc.1 = (g, "All", "All") ∧ aggregate_cell s = some kc.2) ∨ 5 ≤ kc.2.n) := by
  unfold add_cells at h
  rcases List.mem_append.mp h with h3 | hcombo
  · rcases List.mem_append.mp h3 with h2 | hedu
    · rcases List.mem_append.mp h2 with htop | hage
      · rcases mem_topEntries g s kc htop with ⟨hk, hc⟩
        exact ⟨by rw [hk], Or.inl ⟨hk, hc⟩⟩
      · rcases List.mem_flatMap.mp hage with ⟨af, _, hg⟩
        rcases mem_guardEntry _ _ kc hg with ⟨hk, h5⟩
        exact ⟨by rw [hk], Or.inr h5⟩
    · rcases List.mem_flatMap.mp hedu with ⟨es, _, hg⟩
      rcases mem_guardEntry _ _ kc hg with ⟨hk, h5⟩
      exact ⟨by rw [hk], Or.inr h5⟩
  · rcases List.mem_flatMap.mp hcombo with ⟨af, _, hag⟩
    rcases List.mem_flatMap.mp hag with ⟨es, _, hg⟩
    rcases mem_guardEntry _ _ kc hg with ⟨hk, h5⟩
    exact ⟨by rw [hk], Or.inr h5⟩

/-- The keys of the age, education and age-x-education entries of
`add_cells` never have both breakdown components equal to `"All"`. -/
theorem mem_add_cells_breakdown (g : String) (s : List Row) (kc : CellKey × Cell)
    (h : kc ∈ add_cells g s) (hk : kc.1 ≠ (g, "All", "All")) : 5 ≤ kc.2.n := by
  rcases (mem_add_cells g s kc h).2 with ⟨hke, _⟩ | h5
  · exact absurd hke hk
  · exact h5

/-- The top-level cell of a non-empty subset is present in
`add_cells g s`. -/
theorem top_mem_add_cells (g : String) (s : List Row) (hne : s ≠ []) :
    ∃ c, ((g, "All", "All"), c) ∈ add_cells g s ∧ aggregate_cell s = some c := by
  cases hag : aggregate_cell s with
  | none => exact absurd ((aggregate_cell_none s).mp hag) hne
  | some c =>
    refine ⟨c, ?_, rfl⟩
    unfold add_cells topEntries
    rw [hag]
    exact List.mem_append_left _ (List.mem_append_left _
      (List.mem_append_left _ (List.Mem.head _)))

/-! ## Claim C1: minimum-sample-size suppression -/

/-- C1: every cell of the output mapping whose age or education
component is not `"All"` has respondent count at least 5, while the
top-level `(geography, All, All)` cell is present for each geography —
overall, OECD, LMIC, and each listed country — whenever that
geography's row subset is non-empty, with no size guard. -/
theorem C1_suppression (data : List Row) (countries : List CountryInfo) :
    (∀ k c, (k, c) ∈ build_cells data countries →
      (k.2.1 ≠ "All" ∨ k.2.2 ≠ "All") → 5 ≤ c.n) ∧
    (data ≠ [] →
      ∃ c, (("All", "All", "All"), c) ∈ build_cells data countries) ∧
    (data.filter (fun r => decide (r.is_oecd = some "True")) ≠ [] →
      ∃ c, (("OECD", "All", "All"), c) ∈ build_cells data countries) ∧
    (data.filter (fun r => decide (r.is_lmic = some "True")) ≠ [] →
      ∃ c, (("LMIC", "All", "All"), c) ∈ build_cells data countries) ∧
    (∀ ci ∈ countries,
      data.filter (fun r => decide (r.country = some ci.full_name)) ≠ [] →
      ∃ c, ((ci.id, "All", "All"), c) ∈ build_cells data countries) := by
  have hsupp : ∀ k c, (k, c) ∈ build_cells data countries →
      (k.2.1 ≠ "All" ∨ k.2.2 ≠ "All") → 5 ≤ c.n := by
    intro k c hm hne
    have hknot : ∀ g : String, (k, c).1 ≠ (g, "All", "All") := by
      intro g he
      have hk2 : k = (g, "All", "All") := he
      rcases hne with hn | hn
      · exact hn (by rw [hk2])
      · exact hn (by rw [hk2])
    unfold build_cells at hm
    rcases List.mem_append.mp hm with h3 | hco
    · rcases List.mem_append.mp h3 with h2 | hlm
      · rcases List.mem_append.mp h2 with hall | hoe
        · exact mem_add_cells_breakdown _ _ _ hall (hknot "All")
        · exact mem_add_cells_breakdown _ _ _ hoe (hknot "OECD")
      · exact mem_add_cells_breakdown _ _ _ hlm (hknot "LMIC")
    · rcases List.mem_flatMap.mp hco with ⟨ci, _, hci⟩
      exact mem_add_cells_breakdown _ _ _ hci (hknot ci.id)
  refine ⟨hsupp, ?_, ?_, ?_, ?_⟩
  · intro hne
    rcases top_mem_add_cells "All" data hne with ⟨c, hc, _⟩
    exact ⟨c, List.mem_append_left _ (List.mem_append_left _
      (List.mem_append_left _ hc))⟩
  · intro hne
    rcases top_mem_add_cells "OECD" _ hne with ⟨c, hc, _⟩
    exact ⟨c, List.mem_append_left _ (List.mem_append_left _
      (List.mem_append_right _ hc))⟩
  · intro hne
    rcases top_mem_add_cells "LMIC" _ hne with ⟨c, hc, _⟩
    exact ⟨c, List.mem_append_left _ (List.mem_append_right _ hc)⟩
  · intro ci hci hne
    rcases top_mem_add_cells ci.id _ hne with ⟨c, hc, _⟩
    exact ⟨c, List.mem_append_right _ (List.mem_flatMap_of_mem hci hc)⟩

/-- A row that belongs to every geography scope, for the C1 witness. -/
def c1_row : Row :=
  { country := some "Xland", is_oecd := some "True", is_lmic := some "True" }

/-- A country descriptor for the C1 witness. -/
def c1_ci : CountryInfo :=
  { id := "Xland", name := "Xland", full_name := "Xland", group := "oecd", n := 1 }

/-- Witness for C1: all four top-level cells are present for a one-row
table even though its count 1 is below the suppression threshold. -/
theorem C1_witness :
    (∃ c, (("All", "All", "All"), c) ∈ build_cells [c1_row] [c1_ci]) ∧
    (∃ c, (("OECD", "All", "All"), c) ∈ build_cells [c1_row] [c1_ci]) ∧
    (∃ c, (("LMIC", "All", "All"), c) ∈ build_cells [c1_row] [c1_ci]) ∧
    (∃ c, (("Xland", "All", "All"), c) ∈ build_cells [c1_row] [c1_ci]) := by
  have h := C1_suppression [c1_row] [c1_ci]
  exact ⟨h.2.1 (by decide), h.2.2.1 (by decide), h.2.2.2.1 (by decide),
    h.2.2.2.2 c1_ci (by decide) (by decide)⟩

/-! ## Lookup lemmas for claim C10 -/

theorem dlookup_append (l1 l2 : List (CellKey × Cell)) (k : CellKey) :
    dlookup (l1 ++ l2) k =
      match dlookup l2 k with
      | some c => some c
      | none => dlookup l1 k := by
  induction l1 with
  | nil =>
    rw [List.nil_append]
    cases dlookup l2 k <;> rfl
  | cons e es ih =>
    rw [List.cons_append]
    have he : ∀ t, dlookup (e :: t) k = (match dlookup t k with
        | some c => some c
        | none => if e.1 = k then some e.2 else none) := fun t => rfl
    rw [he (es ++ l2), ih, he es]
    cases dlookup l2 k <;> cases dlookup es k <;> rfl

theorem dlookup_eq_none (l : List (CellKey × Cell)) (k : CellKey)
    (h : ∀ e ∈ l, e.1 ≠ k) : dlookup l k = none := by
  induction l with
  | nil => rfl
  | cons e es ih =>
    unfold dlookup
    rw [ih (fun e2 he2 => h e2 (by simp [he2]))]
    rw [if_neg (h e (by simp))]

theorem dlookup_append_none (l1 l2 : List (CellKey × Cell)) (k : CellKey)
    (h : dlookup l2 k = none) : dlookup (l1 ++ l2) k = dlookup l1 k := by
  rw [dlookup_append, h]

/-! ## Claim C10: the overall cell and `meta.total_n` -/

/-- C10 counterexample input: 100 rows of a country literally named
`"All"` (which therefore qualifies for individual reporting) plus one
row of another country. -/
def c10_row_all : Row := { country := some "All" }

/-- The single row of the other country in the C10 counterexample. -/
def c10_row_b : Row := { country := some "B" }

/-- The 101-row counterexample table for C10. -/
def c10_data : List Row := List.replicate 100 c10_row_all ++ [c10_row_b]

set_option maxRecDepth 100000 in
/-- C10 counterexample: on a non-empty filtered table whose qualifying
country is literally named `"All"`, the country's `add_cells` pass
overwrites the overall `All|All|All` dict entry, so the cell's `n` (100)
differs from `meta.total_n` (101). -/
theorem C10_counterexample :
    (build_json c10_data (get_country_info c10_data)
        (build_cells c10_data (get_country_info c10_data))).total_n = 101 ∧
    (dlookup (build_cells c10_data (get_country_info c10_data))
        ("All", "All", "All")).map Cell.n = some 100 := by
  constructor
  · decide
  · decide

/-- C10 (amended): for every non-empty filtered table, provided no
qualifying country's short id is literally `"All"`, the output's
`total_n` and the `n` of the dict entry at key `All|All|All` both equal
the number of rows of the filtered table. -/
theorem C10_amended_total_n (data : List Row) (hne : data ≠ [])
    (hid : ∀ ci ∈ get_country_info data, ci.id ≠ "All") :
    (build_json data (get_country_info data)
        (build_cells data (get_country_info data))).total_n = data.length ∧
    (dlookup (build_cells data (get_country_info data))
        ("All", "All", "All")).map Cell.n = some data.length := by
  refine ⟨rfl, ?_⟩
  have hage_ne : ∀ af ∈ AGE_GROUPS, age_short af ≠ "All" := by decide
  have hedu_ne : ∀ es ∈ EDU_SHORT_ORDER, es ≠ "All" := by decide
  unfold build_cells
  have hD : dlookup ((get_country_info data).flatMap (fun ci =>
      add_cells ci.id (data.filter (fun r => decide (r.country = some ci.full_name)))))
      ("All", "All", "All") = none := by
    apply dlookup_eq_none
    intro e he hek
    rcases List.mem_flatMap.mp he with ⟨ci, hci, hei⟩
    have h1 := (mem_add_cells _ _ _ hei).1
    rw [hek] at h1
    exact hid ci hci h1.symm
  have hC : dlookup (add_cells "LMIC"
      (data.filter (fun r => decide (r.is_lmic = some "True"))))
      ("All", "All", "All") = none := by
    apply dlookup_eq_none
    intro e he hek
    have h1 := (mem_add_cells _ _ _ he).1
    rw [hek] at h1
    exact absurd h1 (by decide)
  have hB : dlookup (add_cells "OECD"
      (data.filter (fun r => decide (r.is_oecd = some "True"))))
      ("All", "All", "All") = none := by
    apply dlookup_eq_none
    intro e he hek
    have h1 := (mem_add_cells _ _ _ he).1
    rw [hek] at h1
    exact absurd h1 (by decide)
  rw [dlookup_append_none _ _ _ hD, dlookup_append_none _ _ _ hC,
    dlookup_append_none _ _ _ hB]
  unfold add_cells
  have hcombo : dlookup (AGE_GROUPS.flatMap (fun af =>
      EDU_SHORT_ORDER.flatMap (fun es =>
        guardEntry ("All", age_short af, es)
          ((data.filter (fun r => decide (r.age = some af))).filter
            (fun r => decide (edu_short r = es))))))
      ("All", "All", "All") = none := by
    apply dlookup_eq_none
    intro e he hek
    rcases List.mem_flatMap.mp he with ⟨af, haf, hei⟩
    rcases List.mem_flatMap.mp hei with ⟨es, hes, heg⟩
    have h1 := (mem_guardEntry _ _ _ heg).1
    rw [hek] at h1
    have h2 := congrArg (fun t : CellKey => t.2.2) h1
    exact hedu_ne es hes h2.symm
  have hedu : dlookup (EDU_SHORT_ORDER.flatMap (fun es =>
      guardEntry ("All", "All", es)
        (data.filter (fun r => decide (edu_short r = es)))))
      ("All", "All", "All") = none := by
    apply dlookup_eq_none
    intro e he hek
    rcases List.mem_flatMap.mp he with ⟨es, hes, heg⟩
    have h1 := (mem_guardEntry _ _ _ heg).1
    rw [hek] at h1
    have h2 := congrArg (fun t : CellKey => t.2.2) h1
    exact hedu_ne es hes h2.symm
  have hage : dlookup (AGE_GROUPS.flatMap (fun af =>
      guardEntry ("All", age_short af, "All")
        (data.filter (fun r => decide (r.age = some af)))))
      ("All", "All", "All") = none := by
    apply dlookup_eq_none
    intro e he hek
    rcases List.mem_flatMap.mp he with ⟨af, haf, heg⟩
    have h1 := (mem_guardEntry _ _ _ heg).1
    rw [hek] at h1
    have h2 := congrArg (fun t : CellKey => t.2.1) h1
    exact hage_ne af haf h2.symm
  rw [dlookup_append_none _ _ _ hcombo, dlookup_append_none _ _ _ hedu,
    dlookup_append_none _ _ _ hage]
  cases hag : aggregate_cell data with
  | none => exact absurd ((aggregate_cell_none data).mp hag) hne
  | some c =>
    unfold topEntries
    rw [hag]
    have hone : dlookup [((("All", "All", "All") : CellKey), c)]
        ("All", "All", "All") = some c := by
      simp [dlookup]
    rw [hone]
    simp [aggregate_cell_n data c hag]

/-- A one-row table for the C10 witness. -/
def c10w_row : Row := { country := some "Xland" }

/-- Witness for C10 (amended) at a concrete one-row table. -/
theorem C10_amended_witness :
    (build_json [c10w_row] (get_country_info [c10w_row])
        (build_cells [c10w_row] (get_country_info [c10w_row]))).total_n = 1 ∧
    (dlookup (build_cells [c10w_row] (get_country_info [c10w_row]))
        ("All", "All", "All")).map Cell.n = some 1 :=
  C10_amended_total_n [c10w_row] (by decide) (by decide)

/-! ## The embedding mode (`embed_in_html`)

The script locates the placeholder with the regex
`(<script\s+id="survey-data"\s+type="application/json">)(.*?)(</script>)`
(DOTALL) via `re.search` and splices the JSON between group 1 and
group 3.  On character lists this is: the leftmost occurrence of the
open-tag pattern (three literals separated by maximal non-empty
whitespace runs — maximal because each following literal starts with a
non-whitespace character), then the first occurrence of `</script>`
after it (the non-greedy inner group).  If the pattern has no match the
script prints a diagnostic, exits with code 1 (modelled as `none`), and
never writes the file. -/

/-- `\s` of the regex engine. -/
def isWS (c : Char) : Bool :=
  c == ' ' || c == '\t' || c == '\n' || c == '\r' || c == '\x0b' || c == '\x0c'

/-- First literal of the open-tag pattern. -/
def openLit1 : List Char := "<script".data

/-- Second literal of the open-tag pattern. -/
def openLit2 : List Char := "id=\"survey-data\"".data

/-- Third literal of the open-tag pattern, including the closing `>`. -/
def openLit3 : List Char := "type=\"application/json\">".data

/-- The closing tag (regex group 3). -/
def closeTag : List Char := "</script>".data

/-- Match a literal at the head, returning its length. -/
def litLen (lit s : List Char) : Option Nat :=
  if lit.isPrefixOf s then some lit.length else none

/-- Match a maximal non-empty whitespace run at the head (`\s+` followed
by a non-whitespace literal), returning its length. -/
def ws1Len (s : List Char) : Option Nat :=
  let k := (s.takeWhile isWS).length
  if k = 0 then none else some k

/-- Match the whole open-tag pattern (regex group 1) at the head,
returning the number of characters consumed. -/
def matchOpenLen (s : List Char) : Option Nat :=
  match litLen openLit1 s with
  | none => none
  | some a =>
    match ws1Len (s.drop a) with
    | none => none
    | some b =>
      match litLen openLit2 (s.drop (a + b)) with
      | none => none
      | some c =>
        match ws1Len (s.drop (a + b + c)) with
        | none => none
        | some d =>
          match litLen openLit3 (s.drop (a + b + c + d)) with
          | none => none
          | some e2 => some (a + b + c + d + e2)

/-- Leftmost occurrence of the open-tag pattern: start index and match
length. -/
def findOpen : List Char → Option (Nat × Nat)
  | [] => none
  | s@(_ :: t) =>
    match matchOpenLen s with
    | some k => some (0, k)
    | none => (findOpen t).map (fun p => (p.1 + 1, p.2))

/-- Index of the first occurrence of `</script>`. -/
def findClose : List Char → Option Nat
  | [] => none
  | s@(_ :: t) =>
    if closeTag.isPrefixOf s then some 0
    else (findClose t).map (· + 1)

/-- `embed_in_html(json_str, html)`: `none` models the diagnostic plus
`sys.exit(1)` path; `some out` models writing `out` back to the file. -/
def embed_in_html (json html : List Char) : Option (List Char) :=
  match findOpen html with
  | none => none
  | some (i, k) =>
    match findClose (html.drop (i + k)) with
    | none => none
    | some j => some (html.take (i + k) ++ json ++ (html.drop (i + k)).drop j)

/-- The content of the target file after the run: rewritten on success,
untouched on the failure path. -/
def written_html (json html : List Char) : List Char :=
  (embed_in_html json html).getD html

/-- Does the document contain a full placeholder marker (open tag
followed by a closing tag)? -/
def hasMarkerB (html : List Char) : Bool :=
  match findOpen html with
  | none => false
  | some (i, k) => (findClose (html.drop (i + k))).isSome

theorem findClose_isPrefixOf (s : List Char) (j : Nat)
    (h : findClose s = some j) : closeTag.isPrefixOf (s.drop j) = true := by
  induction s generalizing j with
  | nil => cases h
  | cons c t ih =>
    unfold findClose at h
    by_cases hp : closeTag.isPrefixOf (c :: t) = true
    · rw [if_pos hp] at h
      rcases Option.some.inj h with rfl
      simpa using hp
    · rw [if_neg hp] at h
      cases hfc : findClose t with
      | none =>
        rw [hfc] at h
        cases h
      | some j2 =>
        rw [hfc, Option.map_some'] at h
        rcases Option.some.inj h with rfl
        rw [List.drop_succ_cons]
        exact ih j2 hfc

theorem findOpen_spec (s : List Char) (i k : Nat)
    (h : findOpen s = some (i, k)) : matchOpenLen (s.drop i) = some k := by
  induction s generalizing i with
  | nil => cases h
  | cons c t ih =>
    unfold findOpen at h
    cases hm : matchOpenLen (c :: t) with
    | some k2 =>
      rw [hm] at h
      have h2 := Option.some.inj h
      injection h2 with hi hk
      subst hi
      subst hk
      simpa using hm
    | none =>
      rw [hm] at h
      cases hf : findOpen t with
      | none =>
        rw [hf] at h
        cases h
      | some p =>
        rw [hf, Option.map_some'] at h
        have h2 := Option.some.inj h
        injection h2 with hi hk
        subst hi
        subst hk
        rw [List.drop_succ_cons]
        exact ih p.1 (by rw [hf])

/-! ## Claim C6: embedding failure is atomic -/

/-- C6: when the document contains no complete placeholder marker, the
run takes the error exit (modelled by `none`) and the written document
is byte-for-byte the original. -/
theorem C6_embed_no_marker (json html : List Char) (h : hasMarkerB html = false) :
    embed_in_html json html = none ∧ written_html json html = html := by
  have he : embed_in_html json html = none := by
    unfold embed_in_html
    split
    · rfl
    · rename_i i k heq
      split
      · rfl
      · rename_i j hcq
        unfold hasMarkerB at h
        rw [heq] at h
        have h2 : (findClose (html.drop (i + k))).isSome = false := h
        rw [hcq] at h2
        simp at h2
  refine ⟨he, ?_⟩
  unfold written_html
  rw [he]
  rfl

/-- A document with a script tag of a different id, so no marker. -/
def c6_html : List Char := "<html><script id=\"other\"></script></html>".data

/-- Witness for C6 at a concrete markerless document. -/
theorem C6_witness :
    embed_in_html "[1,2]".data c6_html = none ∧
    written_html "[1,2]".data c6_html = c6_html :=
  C6_embed_no_marker "[1,2]".data c6_html (by decide)

/-! ## Claim C7: embedding success is a frame-preserving replacement -/

/-- C7: when the document contains the placeholder marker, the document
splits as prefix (ending with the open tag, which starts at the leftmost
match position) ++ inner ++ suffix (starting with `</script>`), and the
written document is exactly prefix ++ JSON ++ suffix: every byte outside
the marker's inner region is unchanged and the inner region becomes
exactly the JSON text. -/
theorem C7_embed_frame (json html : List Char) (h : hasMarkerB html = true) :
    ∃ i k j,
      findOpen html = some (i, k) ∧
      findClose (html.drop (i + k)) = some j ∧
      matchOpenLen (html.drop i) = some k ∧
      html = html.take (i + k) ++
        ((html.drop (i + k)).take j ++ (html.drop (i + k)).drop j) ∧
      embed_in_html json html
        = some (html.take (i + k) ++ json ++ (html.drop (i + k)).drop j) ∧
      closeTag.isPrefixOf ((html.drop (i + k)).drop j) = true := by
  unfold hasMarkerB at h
  cases hf : findOpen html with
  | none =>
    rw [hf] at h
    cases h
  | some p =>
    obtain ⟨i, k⟩ := p
    rw [hf] at h
    have h2 : (findClose (html.drop (i + k))).isSome = true := h
    cases hc : findClose (html.drop (i + k)) with
    | none =>
      rw [hc] at h2
      cases h2
    | some j =>
      refine ⟨i, k, j, rfl, hc, findOpen_spec html i k hf, ?_, ?_,
        findClose_isPrefixOf _ j hc⟩
      · rw [List.take_append_drop, List.take_append_drop]
      · unfold embed_in_html
        rw [hf]
        show (match findClose (html.drop (i + k)) with
          | none => none
          | some j2 => some (html.take (i + k) ++ json ++ (html.drop (i + k)).drop j2))
          = some (html.take (i + k) ++ json ++ (html.drop (i + k)).drop j)
        rw [hc]

/-- A document containing the exact placeholder markup. -/
def c7_html : List Char :=
  "<html><script id=\"survey-data\" type=\"application/json\"></script><p>x</p>".data

/-- Witness for C7 at a concrete document containing the marker. -/
theorem C7_witness :
    hasMarkerB c7_html = true ∧
    (∃ i k j,
      findOpen c7_html = some (i, k) ∧
      findClose (c7_html.drop (i + k)) = some j ∧
      matchOpenLen (c7_html.drop i) = some k ∧
      c7_html = c7_html.take (i + k) ++
        ((c7_html.drop (i + k)).take j ++ (c7_html.drop (i + k)).drop j) ∧
      embed_in_html "[1,2]".data c7_html
        = some (c7_html.take (i + k) ++ "[1,2]".data ++ (c7_html.drop (i + k)).drop j) ∧
      closeTag.isPrefixOf ((c7_html.drop (i + k)).drop j) = true) :=
  ⟨by decide, C7_embed_frame "[1,2]".data c7_html (by decide)⟩

end ProcessSurvey
